import Mathlib

/-!
Verification development for the JRA racing ROI feature-generation repository.

The repository consists of two Python modules, `blood_features.py` and
`jockey_features.py`.  Each public operation issues one or more SQL queries
(via `pd.read_sql`) against a relational data source and post-processes the
result in Python.  This file gives a shallow embedding of those operations:

* a table row of the joined `jvd_se`/`jvd_ra`/`jvd_um` data is a `RaceRow`;
* each `pd.read_sql` call is modelled as an `Except Unit _` input whose `ok`
  payload carries the underlying table rows, and the SQL text of the query is
  translated into Lean list processing over those rows (filters for `WHERE`,
  `distinctKeys`/`List.filter` for `GROUP BY`, explicit arithmetic over `ℚ`
  for the aggregate columns, an insertion sort for `ORDER BY`);
* the Python `try/except` blocks become `match` on the `Except` values;
* the pedigree recursive CTE and the Python tree reshaping are modelled over
  a `jvd_um` table given as a lookup function `String → Option UmRow`.
-/

namespace JRA

/-! ## Numeric helpers -/

/-- `ROUND(x, 2)` of PostgreSQL `NUMERIC`: rounding half away from zero at
two decimal places. -/
def round2 (q : ℚ) : ℚ :=
  ((if q < 0 then -⌊-(q * 100) + 1/2⌋ else ⌊q * 100 + 1/2⌋ : ℤ) : ℚ) / 100

/-- Insert an element into a list before the first element it is `le`-below. -/
def insertLe {α : Type} (le : α → α → Bool) (a : α) : List α → List α
  | [] => [a]
  | b :: l => if le a b then a :: b :: l else b :: insertLe le a l

/-- Deterministic comparison sort used to model SQL `ORDER BY`. -/
def sortBy {α : Type} (le : α → α → Bool) : List α → List α
  | [] => []
  | a :: l => insertLe le a (sortBy le l)

/-- The distinct values occurring in a list (the `GROUP BY` key population). -/
def distinctKeys {K : Type} [DecidableEq K] : List K → List K
  | [] => []
  | k :: l => if k ∈ distinctKeys l then distinctKeys l else k :: distinctKeys l

/-- Lexicographic strict order on character lists, by code point. -/
def lexLtB : List Char → List Char → Bool
  | [], [] => false
  | [], _ :: _ => true
  | _ :: _, [] => false
  | a :: as, b :: bs => decide (a < b) || (decide (a = b) && lexLtB as bs)

/-- Strict lexicographic order on strings, by code point. -/
def strLtB (a b : String) : Bool := lexLtB a.data b.data

/-- Non-strict lexicographic order on strings. -/
def strLeB (a b : String) : Bool := !(strLtB b a)

/-- Descending order on an optional `roi_percentage` column, nulls last:
`roiGeB x y` holds when `x` may come before `y`. -/
def roiGeB : Option ℚ → Option ℚ → Bool
  | some a, some b => decide (b ≤ a)
  | some _, none => true
  | none, some _ => false
  | none, none => true

structure RaceRow where
  kishu_code : String
  kishumei_ryakusho : String
  keibajo_code : String
  track_code : String
  babajotai_code_shiba : String
  babajotai_code_dirt : String
  kyori : Int
  kakutei_chakujun : String
  tansho_odds : Option Int
  tansho_ninkijun : Option Int
  kaisai_nen : String
  ketto_joho_01a : String
  ketto_joho_01b : String
deriving DecidableEq, Repr

/-! ## Categorical bucketer (the SQL `CASE` expressions) -/

/-- Whether `SUBSTRING(s, 1, 1)` equals the one-character string of `c`. -/
def firstCharIs (s : String) (c : Char) : Bool :=
  match s.data with
  | [] => false
  | a :: _ => a == c

/-- `TRIM(s)`: strip leading and trailing spaces (SQL default `TRIM`). -/
def trimStr (s : String) : String :=
  ⟨((s.data.dropWhile (· == ' ')).reverse.dropWhile (· == ' ')).reverse⟩

/-- Track type `CASE`: first character of `track_code`. -/
def track_type (r : RaceRow) : String :=
  if firstCharIs r.track_code '1' then "芝"
  else if firstCharIs r.track_code '2' then "ダート"
  else "その他"

/-- Going-condition `CASE`: turf rows read `babajotai_code_shiba`, dirt rows
read `babajotai_code_dirt`; codes 1-4 map to the four named conditions and
everything else to `不明`. -/
def track_condition (r : RaceRow) : String :=
  if firstCharIs r.track_code '1' then
    if r.babajotai_code_shiba == "1" then "良"
    else if r.babajotai_code_shiba == "2" then "稍重"
    else if r.babajotai_code_shiba == "3" then "重"
    else if r.babajotai_code_shiba == "4" then "不良"
    else "不明"
  else if firstCharIs r.track_code '2' then
    if r.babajotai_code_dirt == "1" then "良"
    else if r.babajotai_code_dirt == "2" then "稍重"
    else if r.babajotai_code_dirt == "3" then "重"
    else if r.babajotai_code_dirt == "4" then "不良"
    else "不明"
  else "不明"

/-- Distance-band `CASE` on `kyori`. -/
def distance_category (r : RaceRow) : String :=
  if r.kyori ≤ 1400 then "短距離"
  else if r.kyori ≤ 2000 then "中距離"
  else "長距離"

/-- Popularity-tier `CASE` on `tansho_ninkijun`. -/
def popularity_category (p : Int) : String :=
  if 1 ≤ p ∧ p ≤ 3 then "人気（1-3位）"
  else if 4 ≤ p ∧ p ≤ 8 then "中穴（4-8位）"
  else "大穴（9位-）"

/-- Course-name `CASE` on `keibajo_code` (unknown codes pass through). -/
def course_name (code : String) : String :=
  if code == "01" then "札幌"
  else if code == "02" then "函館"
  else if code == "03" then "福島"
  else if code == "04" then "新潟"
  else if code == "05" then "東京"
  else if code == "06" then "中山"
  else if code == "07" then "中京"
  else if code == "08" then "京都"
  else if code == "09" then "阪神"
  else if code == "10" then "小倉"
  else code

/-! ## Row-level predicates shared by every aggregation query -/

/-- Whether a string matches the SQL regex `^[0-9]+$`. -/
def isNumericStr (s : String) : Bool :=
  !s.data.isEmpty && s.data.all (fun c => c.isDigit)

/-- The record-qualification filter present in every aggregation query:
`kakutei_chakujun ~ '^[0-9]+$' AND kakutei_chakujun NOT IN ('00','99')
AND tansho_odds IS NOT NULL`. -/
def qualifies (r : RaceRow) : Bool :=
  isNumericStr r.kakutei_chakujun
    && !(r.kakutei_chakujun == "00")
    && !(r.kakutei_chakujun == "99")
    && r.tansho_odds.isSome

/-- `win_odds`: raw odds tenths divided by `10.0`. -/
def win_odds (r : RaceRow) : ℚ := ((r.tansho_odds.getD 0 : ℤ) : ℚ) / 10

/-- Winner predicate `finish_pos = '01'`. -/
def isWin (r : RaceRow) : Bool := r.kakutei_chakujun == "01"

/-- Top-three predicate `finish_pos IN ('01','02','03')`. -/
def isTop3 (r : RaceRow) : Bool :=
  r.kakutei_chakujun == "01" || r.kakutei_chakujun == "02"
    || r.kakutei_chakujun == "03"

/-! ## Aggregate columns over one group of rows -/

/-- `COUNT(*) FILTER (WHERE finish_pos = '01')`. -/
def winsOf (l : List RaceRow) : Nat := (l.filter isWin).length

/-- `COUNT(*) FILTER (WHERE finish_pos IN ('01','02','03'))`. -/
def top3Of (l : List RaceRow) : Nat := (l.filter isTop3).length

/-- `ROUND(k::NUMERIC / NULLIF(n, 0) * 100, 2)`. -/
def pctOf (k n : Nat) : Option ℚ :=
  if n = 0 then none else some (round2 ((k : ℚ) / (n : ℚ) * 100))

/-- `SUM(CASE WHEN finish_pos = '01' THEN win_odds ELSE 0 END)`. -/
def winOddsSum (l : List RaceRow) : ℚ := ((l.filter isWin).map win_odds).sum

/-- `ROUND(SUM(winning odds) / NULLIF(COUNT(*), 0) * 100, 2)`. -/
def roi_percentageOf (l : List RaceRow) : Option ℚ :=
  if l.length = 0 then none
  else some (round2 (winOddsSum l / (l.length : ℚ) * 100))

/-- `ROUND(AVG(CASE WHEN finish_pos = '01' THEN win_odds ELSE NULL END), 2)`. -/
def avg_win_oddsOf (l : List RaceRow) : Option ℚ :=
  let w := (l.filter isWin).map win_odds
  if w.length = 0 then none else some (round2 (w.sum / (w.length : ℚ)))

/-- `ROUND(AVG(popularity), 2)` (SQL `AVG` skips NULLs). -/
def avg_popularityOf (l : List RaceRow) : Option ℚ :=
  let p := l.filterMap (·.tansho_ninkijun)
  if p.length = 0 then none
  else some (round2 ((p.map fun z => (z : ℚ)).sum / (p.length : ℚ)))

/-- Partition the rows passing `pred` into groups by `key`: the SQL
`WHERE pred GROUP BY key` skeleton shared by every aggregation query. -/
def groupsOf {K : Type} [DecidableEq K] (pred : RaceRow → Bool)
    (key : RaceRow → K) (rows : List RaceRow) : List (K × List RaceRow) :=
  (distinctKeys ((rows.filter pred).map key)).map fun k =>
    (k, (rows.filter pred).filter fun r => key r == k)

/-- A popularity bound test: NULL popularity fails every comparison. -/
def popBetween (lo hi : Int) (r : RaceRow) : Bool :=
  match r.tansho_ninkijun with
  | some p => lo ≤ p && p ≤ hi
  | none => false

/-- A one-sided popularity bound test: NULL popularity fails it. -/
def popAtLeast (lo : Int) (r : RaceRow) : Bool :=
  match r.tansho_ninkijun with
  | some p => lo ≤ p
  | none => false

/-- `COUNT(*) FILTER (WHERE popularity >= 4 AND popularity <= 8 AND
finish_pos = '01')`. -/
def middle_odds_winsOf (l : List RaceRow) : Nat :=
  (l.filter fun r => popBetween 4 8 r && isWin r).length

/-- `COUNT(*) FILTER (WHERE popularity >= 9 AND finish_pos = '01')`. -/
def longshot_winsOf (l : List RaceRow) : Nat :=
  (l.filter fun r => popAtLeast 9 r && isWin r).length

/-- `COUNT(*) FILTER (WHERE popularity >= 4 AND finish_pos = '01')`. -/
def non_favorite_winsOf (l : List RaceRow) : Nat :=
  (l.filter fun r => popAtLeast 4 r && isWin r).length

/-! ## Full rollup operations

Each operation takes the outcome of its single `pd.read_sql` call: `.error`
when the query raised (the Python `except` branch returns an empty
DataFrame, here `[]`), `.ok rows` with the underlying joined table rows
otherwise.  `since_year` is the decimal string interpolated into the SQL
(`r.kaisai_nen >= '{since_year}'` is a text comparison). -/

/-- One output row of `get_sire_track_condition_roi`. -/
structure SireCondRow where
  sire_id : String
  sire_name : String
  track_type : String
  track_condition : String
  total_races : Nat
  wins : Nat
  win_rate : Option ℚ
  roi_percentage : Option ℚ
  avg_win_odds : Option ℚ
  avg_popularity : Option ℚ
  longshot_wins : Nat
deriving DecidableEq, Repr

/-- `GROUP BY sire_id, sire_name, track_type, track_condition` key. -/
def sireCondKey (r : RaceRow) : String × String × String × String :=
  (r.ketto_joho_01a, trimStr r.ketto_joho_01b, track_type r, track_condition r)

/-- The `WHERE` clause of `get_sire_track_condition_roi`: record
qualification, the year bound, and the sentinel-sire exclusion. -/
def sireCondPred (since_year : String) (r : RaceRow) : Bool :=
  qualifies r && strLeB since_year r.kaisai_nen
    && !(r.ketto_joho_01a == "0000000000")

/-- Build one `get_sire_track_condition_roi` output row from a group. -/
def mkSireCondRow (k : String × String × String × String)
    (g : List RaceRow) : SireCondRow :=
  { sire_id := k.1, sire_name := k.2.1, track_type := k.2.2.1,
    track_condition := k.2.2.2, total_races := g.length,
    wins := winsOf g, win_rate := pctOf (winsOf g) g.length,
    roi_percentage := roi_percentageOf g,
    avg_win_odds := avg_win_oddsOf g,
    avg_popularity := avg_popularityOf g,
    longshot_wins := longshot_winsOf g }

/-- `BloodFeatureGenerator.get_sire_track_condition_roi`. -/
def get_sire_track_condition_roi (since_year : String) (min_races : Nat)
    (fetch : Except Unit (List RaceRow)) : List SireCondRow :=
  match fetch with
  | .error _ => []
  | .ok rows =>
    sortBy (fun a b => roiGeB a.roi_percentage b.roi_percentage)
      (((groupsOf (sireCondPred since_year) sireCondKey rows).map fun kg =>
          mkSireCondRow kg.1 kg.2).filter fun g => min_races ≤ g.total_races)

/-- One output row of `get_jockey_course_roi`. -/
structure JockeyCourseRow where
  jockey_id : String
  jockey_name : String
  course_name : String
  track_type : String
  distance_category : String
  total_races : Nat
  wins : Nat
  top3_finishes : Nat
  win_rate : Option ℚ
  top3_rate : Option ℚ
  roi_percentage : Option ℚ
  avg_win_odds : Option ℚ
  avg_popularity : Option ℚ
  middle_odds_wins : Nat
  longshot_wins : Nat
deriving DecidableEq, Repr

/-- `GROUP BY jockey_id, jockey_name, course_name, track_type,
distance_category` key. -/
def jockeyCourseKey (r : RaceRow) : String × String × String × String × String :=
  (r.kishu_code, trimStr r.kishumei_ryakusho, course_name r.keibajo_code,
    track_type r, distance_category r)

/-- The `WHERE` clause shared by `get_jockey_course_roi` and
`get_jockey_surface_condition_roi`: record qualification plus the year
bound. -/
def jockeyPred (since_year : String) (r : RaceRow) : Bool :=
  qualifies r && strLeB since_year r.kaisai_nen

/-- Build one `get_jockey_course_roi` output row from a group. -/
def mkJockeyCourseRow (k : String × String × String × String × String)
    (g : List RaceRow) : JockeyCourseRow :=
  { jockey_id := k.1, jockey_name := k.2.1, course_name := k.2.2.1,
    track_type := k.2.2.2.1, distance_category := k.2.2.2.2,
    total_races := g.length, wins := winsOf g, top3_finishes := top3Of g,
    win_rate := pctOf (winsOf g) g.length,
    top3_rate := pctOf (top3Of g) g.length,
    roi_percentage := roi_percentageOf g,
    avg_win_odds := avg_win_oddsOf g,
    avg_popularity := avg_popularityOf g,
    middle_odds_wins := middle_odds_winsOf g,
    longshot_wins := longshot_winsOf g }

/-- `JockeyFeatureGenerator.get_jockey_course_roi`. -/
def get_jockey_course_roi (since_year : String) (min_races : Nat)
    (fetch : Except Unit (List RaceRow)) : List JockeyCourseRow :=
  match fetch with
  | .error _ => []
  | .ok rows =>
    sortBy (fun a b => roiGeB a.roi_percentage b.roi_percentage)
      (((groupsOf (jockeyPred since_year) jockeyCourseKey rows).map fun kg =>
          mkJockeyCourseRow kg.1 kg.2).filter fun g =>
        min_races ≤ g.total_races)

/-- One output row of `get_jockey_popularity_roi`. -/
structure JockeyPopRow where
  jockey_id : String
  jockey_name : String
  popularity_category : String
  total_races : Nat
  wins : Nat
  top3_finishes : Nat
  win_rate : Option ℚ
  top3_rate : Option ℚ
  roi_percentage : Option ℚ
  avg_win_odds : Option ℚ
deriving DecidableEq, Repr

/-- `GROUP BY jockey_id, jockey_name, popularity_category` key. -/
def jockeyPopKey (r : RaceRow) : String × String × String :=
  (r.kishu_code, trimStr r.kishumei_ryakusho,
    popularity_category (r.tansho_ninkijun.getD 0))

/-- `ORDER BY popularity_category, roi_percentage DESC` comparator. -/
def popRowLe (a b : JockeyPopRow) : Bool :=
  strLtB a.popularity_category b.popularity_category
    || (a.popularity_category == b.popularity_category
        && roiGeB a.roi_percentage b.roi_percentage)

/-- The `WHERE` clause of `get_jockey_popularity_roi`: record qualification,
the year bound, and `tansho_ninkijun IS NOT NULL`. -/
def jockeyPopPred (since_year : String) (r : RaceRow) : Bool :=
  qualifies r && strLeB since_year r.kaisai_nen && r.tansho_ninkijun.isSome

/-- Build one `get_jockey_popularity_roi` output row from a group. -/
def mkJockeyPopRow (k : String × String × String) (g : List RaceRow) :
    JockeyPopRow :=
  { jockey_id := k.1, jockey_name := k.2.1, popularity_category := k.2.2,
    total_races := g.length, wins := winsOf g, top3_finishes := top3Of g,
    win_rate := pctOf (winsOf g) g.length,
    top3_rate := pctOf (top3Of g) g.length,
    roi_percentage := roi_percentageOf g,
    avg_win_odds := avg_win_oddsOf g }

/-- `JockeyFeatureGenerator.get_jockey_popularity_roi`. -/
def get_jockey_popularity_roi (since_year : String) (min_races : Nat)
    (fetch : Except Unit (List RaceRow)) : List JockeyPopRow :=
  match fetch with
  | .error _ => []
  | .ok rows =>
    sortBy popRowLe
      (((groupsOf (jockeyPopPred since_year) jockeyPopKey rows).map fun kg =>
          mkJockeyPopRow kg.1 kg.2).filter fun g => min_races ≤ g.total_races)

/-- One output row of `get_jockey_surface_condition_roi`. -/
structure JockeySurfRow where
  jockey_id : String
  jockey_name : String
  track_type : String
  surface_condition : String
  total_races : Nat
  wins : Nat
  top3_finishes : Nat
  win_rate : Option ℚ
  top3_rate : Option ℚ
  roi_percentage : Option ℚ
  avg_win_odds : Option ℚ
  avg_popularity : Option ℚ
  non_favorite_wins : Nat
deriving DecidableEq, Repr

/-- `GROUP BY jockey_id, jockey_name, track_type, surface_condition` key. -/
def jockeySurfKey (r : RaceRow) : String × String × String × String :=
  (r.kishu_code, trimStr r.kishumei_ryakusho, track_type r, track_condition r)

/-- Build one `get_jockey_surface_condition_roi` output row from a group. -/
def mkJockeySurfRow (k : String × String × String × String)
    (g : List RaceRow) : JockeySurfRow :=
  { jockey_id := k.1, jockey_name := k.2.1, track_type := k.2.2.1,
    surface_condition := k.2.2.2, total_races := g.length,
    wins := winsOf g, top3_finishes := top3Of g,
    win_rate := pctOf (winsOf g) g.length,
    top3_rate := pctOf (top3Of g) g.length,
    roi_percentage := roi_percentageOf g,
    avg_win_odds := avg_win_oddsOf g,
    avg_popularity := avg_popularityOf g,
    non_favorite_wins := non_favorite_winsOf g }

/-- `JockeyFeatureGenerator.get_jockey_surface_condition_roi`. -/
def get_jockey_surface_condition_roi (since_year : String) (min_races : Nat)
    (fetch : Except Unit (List RaceRow)) : List JockeySurfRow :=
  match fetch with
  | .error _ => []
  | .ok rows =>
    sortBy (fun a b => roiGeB a.roi_percentage b.roi_percentage)
      (((groupsOf (jockeyPred since_year) jockeySurfKey rows).map fun kg =>
          mkJockeySurfRow kg.1 kg.2).filter fun g => min_races ≤ g.total_races)

/-! ## Sire rank pipeline (the `rank_query` of
`get_horse_sire_track_roi_feature`)

The rank query filters to one `(track_type, track_condition)` segment,
groups by `sire_id` with `HAVING COUNT(*) >= 20`, and numbers the rows by
`ROW_NUMBER() OVER (ORDER BY SUM(winning odds) / NULLIF(COUNT(*),0) DESC)`.
Note this query has no `since_year` and no sentinel-sire filter. -/

/-- The rank query's segment restriction: the record-qualification filter
plus `WHERE track_type = … AND track_condition = …`. -/
def rankSegPred (tt tc : String) (r : RaceRow) : Bool :=
  qualifies r && track_type r == tt && track_condition r == tc

/-- The sires of a segment that meet the hard-coded `HAVING COUNT(*) >= 20`
threshold. -/
def qualSires (rows : List RaceRow) (tt tc : String) : List String :=
  ((groupsOf (rankSegPred tt tc) (·.ketto_joho_01a) rows).filter fun kg =>
    20 ≤ kg.2.length).map (·.1)

/-- The ranking population: per qualifying sire its `(id, total_races,
unrounded ROI ratio)`, ordered by the ratio descending.  `ROW_NUMBER` of an
entry is its position plus one. -/
def sireRanking (rows : List RaceRow) (tt tc : String) :
    List (String × Nat × ℚ) :=
  sortBy (fun a b => decide (b.2.2 ≤ a.2.2))
    (((groupsOf (rankSegPred tt tc) (·.ketto_joho_01a) rows).map fun kg =>
        (kg.1, kg.2.length, winOddsSum kg.2 / (kg.2.length : ℚ))).filter
      fun x => 20 ≤ x.2.1)

/-- The `ROW_NUMBER` of the first entry for `sid` in the ranking, counting
from `i + 1`; `0` when `sid` does not occur. -/
def rankLookup (sid : String) : List (String × Nat × ℚ) → Nat → Nat
  | [], _ => 0
  | x :: l, i => if x.1 == sid then i + 1 else rankLookup sid l (i + 1)

/-- `SELECT roi_rank FROM sire_ranking WHERE sire_id = …`, then Python's
`rank_info.iloc[0]['roi_rank'] if not rank_info.empty else 0`. -/
def sireRoiRank (rows : List RaceRow) (tt tc sid : String) : Nat :=
  rankLookup sid (sireRanking rows tt tc) 0

/-! ## `get_horse_sire_track_roi_feature` -/

/-- The segment ROI query's `WHERE` clause: record qualification, the sire
restriction, and the track-type/condition restriction. -/
def sireSegPred (sid tt tc : String) (r : RaceRow) : Bool :=
  qualifies r && r.ketto_joho_01a == sid && track_type r == tt
    && track_condition r == tc

/-- The feature dict returned by `get_horse_sire_track_roi_feature`. -/
structure SireTrackFeature where
  sire_name : Option String
  sire_track_roi : Option ℚ
  sire_track_win_rate : Option ℚ
  sire_track_races : Nat
  sire_track_roi_rank : Nat
deriving DecidableEq, Repr

/-- The zero-filled fallback dict of `get_horse_sire_track_roi_feature`
(used when the sire lookup finds nothing and in the outer `except`). -/
def zeroSireTrackFeature : SireTrackFeature :=
  { sire_name := none, sire_track_roi := some 0, sire_track_win_rate := some 0,
    sire_track_races := 0, sire_track_roi_rank := 0 }

/-- `BloodFeatureGenerator.get_horse_sire_track_roi_feature`.

The operation issues three queries; each is an `Except` input here:
* `sireF` — the sire-lookup result rows `(ketto_joho_01a, TRIM(ketto_joho_01b))`
  for the requested horse;
* `roiF` — the table rows underlying the single-segment ROI query;
* `rankF` — the table rows underlying the rank query (its own `read_sql`
  call, guarded by the inner `try/except` that degrades the rank to 0).

The ROI aggregate (`COUNT(*)` without `GROUP BY`) always yields exactly one
row whose `total_races` is a number, so the Python guard
`roi_info.empty or roi_info.iloc[0]['total_races'] is None` never fires and
is not modelled. -/
def get_horse_sire_track_roi_feature (race_track_type race_condition : String)
    (sireF : Except Unit (List (String × String)))
    (roiF : Except Unit (List RaceRow))
    (rankF : Except Unit (List RaceRow)) : SireTrackFeature :=
  match sireF with
  | .error _ => zeroSireTrackFeature
  | .ok [] => zeroSireTrackFeature
  | .ok ((sire_id, sire_name) :: _) =>
    match roiF with
    | .error _ => zeroSireTrackFeature
    | .ok rows =>
      let g := rows.filter (sireSegPred sire_id race_track_type race_condition)
      let roi_rank := match rankF with
        | .error _ => 0
        | .ok rrows => sireRoiRank rrows race_track_type race_condition sire_id
      { sire_name := some sire_name,
        sire_track_roi := roi_percentageOf g,
        sire_track_win_rate := pctOf (winsOf g) g.length,
        sire_track_races := g.length,
        sire_track_roi_rank := roi_rank }

/-! ## `get_jockey_course_feature` -/

/-- A value of the Python feature dict returned by
`get_jockey_course_feature`. -/
inductive Val where
  | vs : String → Val
  | vn : Nat → Val
  | vq : ℚ → Val
  | vnull : Val
deriving DecidableEq, Repr

/-- Pack an optional numeric column into a dict value. -/
def oq : Option ℚ → Val
  | some q => .vq q
  | none => .vnull

/-- The `course_code_map` dict of `get_jockey_course_feature`. -/
def course_code_map (n : String) : Option String :=
  if n == "札幌" then some "01"
  else if n == "函館" then some "02"
  else if n == "福島" then some "03"
  else if n == "新潟" then some "04"
  else if n == "東京" then some "05"
  else if n == "中山" then some "06"
  else if n == "中京" then some "07"
  else if n == "京都" then some "08"
  else if n == "阪神" then some "09"
  else if n == "小倉" then some "10"
  else none

/-- The `jockey_course_stats` CTE row filter: record qualification plus the
jockey, course-code, track-type and distance-category restrictions. -/
def gjcfSeg (jockey_id course_code tt dc : String) (rows : List RaceRow) :
    List RaceRow :=
  rows.filter fun r =>
    qualifies r && r.kishu_code == jockey_id && r.keibajo_code == course_code
      && track_type r == tt && distance_category r == dc

/-- The `jockey_all_stats` CTE row filter: record qualification plus the
jockey restriction only. -/
def gjcfAll (jockey_id : String) (rows : List RaceRow) : List RaceRow :=
  rows.filter fun r => qualifies r && r.kishu_code == jockey_id

/-- The degraded dict: built both by the empty-DataFrame branch and by the
`except` branch of `get_jockey_course_feature`. -/
def gjcfDegraded (jockey_id course_name_p track_type_p distance_category_p :
    String) : List (String × Val) :=
  [("jockey_id", .vs jockey_id), ("jockey_name", .vs ""),
   ("course_name", .vs course_name_p), ("track_type", .vs track_type_p),
   ("distance_category", .vs distance_category_p), ("total_races", .vn 0),
   ("wins", .vn 0), ("win_rate", .vq 0), ("roi_percentage", .vq 0),
   ("avg_win_odds", .vq 0), ("course_aptitude_index", .vq 0),
   ("win_rate_ratio", .vq 0)]

/-- The successful dict: `df.iloc[0].to_dict()` of the 20-column `SELECT`,
built from the segment group `g` and the jockey-wide group `ga`. -/
def gjcfSuccess (jockey_name_v course_name_p track_type_p
    distance_category_p : String) (jockey_id_v : String)
    (g ga : List RaceRow) : List (String × Val) :=
  [("jockey_id", .vs jockey_id_v), ("jockey_name", .vs jockey_name_v),
   ("course_name", .vs course_name_p), ("track_type", .vs track_type_p),
   ("distance_category", .vs distance_category_p),
   ("total_races", .vn g.length), ("wins", .vn (winsOf g)),
   ("top3_finishes", .vn (top3Of g)),
   ("win_rate", oq (pctOf (winsOf g) g.length)),
   ("top3_rate", oq (pctOf (top3Of g) g.length)),
   ("roi_percentage", oq (roi_percentageOf g)),
   ("avg_win_odds", oq (avg_win_oddsOf g)),
   ("avg_popularity", oq (avg_popularityOf g)),
   ("middle_odds_wins", .vn (middle_odds_winsOf g)),
   ("longshot_wins", .vn (longshot_winsOf g)),
   ("all_total_races", .vn ga.length),
   ("all_win_rate", oq (pctOf (winsOf ga) ga.length)),
   ("all_roi_percentage", oq (roi_percentageOf ga)),
   ("course_aptitude_index",
     oq (match roi_percentageOf g, roi_percentageOf ga with
         | some x, some y => if y = 0 then none else some (round2 (x / y))
         | _, _ => none)),
   ("win_rate_ratio",
     oq (match pctOf (winsOf g) g.length, pctOf (winsOf ga) ga.length with
         | some x, some y => if y = 0 then none else some (round2 (x / y))
         | _, _ => none))]

/-- `JockeyFeatureGenerator.get_jockey_course_feature`.  The single
`pd.read_sql` call is the `fetch` input; its `ok` payload carries the
underlying table rows from which the query's CTEs are computed. -/
def get_jockey_course_feature (jockey_id course_name_p track_type_p
    distance_category_p : String) (fetch : Except Unit (List RaceRow)) :
    List (String × Val) :=
  match fetch with
  | .error _ =>
    gjcfDegraded jockey_id course_name_p track_type_p distance_category_p
  | .ok rows =>
    let cc := (course_code_map course_name_p).getD course_name_p
    let seg := gjcfSeg jockey_id cc track_type_p distance_category_p rows
    let alls := gjcfAll jockey_id rows
    let aggKeys := distinctKeys (seg.map fun r =>
      (r.kishu_code, trimStr r.kishumei_ryakusho))
    let allKeys := distinctKeys (alls.map fun r =>
      (r.kishu_code, trimStr r.kishumei_ryakusho))
    let joined := aggKeys.flatMap fun a =>
      (allKeys.filter fun b => b.1 == a.1).map fun b => (a, b)
    match joined with
    | [] =>
      gjcfDegraded jockey_id course_name_p track_type_p distance_category_p
    | (a, b) :: _ =>
      let g := seg.filter fun r =>
        (r.kishu_code, trimStr r.kishumei_ryakusho) == a
      let ga := alls.filter fun r =>
        (r.kishu_code, trimStr r.kishumei_ryakusho) == b
      gjcfSuccess a.2 course_name_p track_type_p distance_category_p a.1 g ga

/-! ## Pedigree tree builder (`get_pedigree_tree`)

The recursive CTE expands the `jvd_um` registry generation by generation;
the Python post-processing folds the generation/position-ordered rows into
a nested dict.  The `jvd_um` table is modelled as a lookup
`String → Option UmRow` keyed by `ketto_toroku_bango`. -/

/-- One `jvd_um` registry row (ancestry fields are nullable). -/
structure UmRow where
  bamei : String
  ketto_joho_01a : Option String
  ketto_joho_01b : Option String
  ketto_joho_02a : Option String
  ketto_joho_02b : Option String
deriving DecidableEq, Repr

/-- One row of the recursive `pedigree` CTE. -/
structure PedRow where
  horse_id : String
  horse_name : Option String
  sire_id : Option String
  sire_name : Option String
  dam_id : Option String
  dam_name : Option String
  generation : Nat
  position : List Char
deriving DecidableEq, Repr

/-- The non-recursive seed of the CTE: the root horse's own registry row,
generation 1, position `'1'`. -/
def baseRow (hid : String) (u : UmRow) : PedRow :=
  { horse_id := hid, horse_name := some (trimStr u.bamei),
    sire_id := u.ketto_joho_01a, sire_name := u.ketto_joho_01b.map trimStr,
    dam_id := u.ketto_joho_02a, dam_name := u.ketto_joho_02b.map trimStr,
    generation := 1, position := ['1'] }

/-- One recursive step of the CTE for one parent row and one branch
(`'1'` = sire side, `'2'` = dam side): guarded by the ancestor id being
non-NULL and not the `'0000000000'` sentinel; the ancestor's own parents
come from a `LEFT JOIN` back to `jvd_um`, so they are NULL when the
ancestor has no registry row. -/
def childOf (db : String → Option UmRow) (p : PedRow) (branch : Char) :
    Option PedRow :=
  match (if branch == '1' then p.sire_id else p.dam_id) with
  | none => none
  | some id =>
    if id == "0000000000" then none
    else some
      { horse_id := id,
        horse_name := if branch == '1' then p.sire_name else p.dam_name,
        sire_id := (db id).bind (·.ketto_joho_01a),
        sire_name := ((db id).bind (·.ketto_joho_01b)).map trimStr,
        dam_id := (db id).bind (·.ketto_joho_02a),
        dam_name := ((db id).bind (·.ketto_joho_02b)).map trimStr,
        generation := p.generation + 1, position := p.position ++ [branch] }

/-- One whole iteration of the recursive CTE: every parent row below the
depth bound contributes its sire-branch and dam-branch child rows.  Parents
are traversed in position order, so each generation comes out in the
`ORDER BY position` order. -/
def nextGen (db : String → Option UmRow) (depth : Nat)
    (rows : List PedRow) : List PedRow :=
  rows.flatMap fun p =>
    if p.generation < depth then
      (childOf db p '1').toList ++ (childOf db p '2').toList
    else []

/-- The rows of generation `n + 1` (iterate `nextGen` `n` times from the
seed). -/
def genList (db : String → Option UmRow) (depth : Nat) (g1 : List PedRow) :
    Nat → List PedRow
  | 0 => g1
  | n + 1 => nextGen db depth (genList db depth g1 n)

/-- All CTE rows in `ORDER BY generation, position` order.  When the root id
has no registry row the seed `SELECT` returns nothing and the whole CTE is
empty. -/
def pedRows (db : String → Option UmRow) (hid : String) (depth : Nat) :
    List PedRow :=
  match db hid with
  | none => []
  | some u =>
    (List.range (max depth 1)).flatMap (genList db depth [baseRow hid u])

/-- The nested-dict pedigree tree.  `missing` is the absence of a `'sire'`
or `'dam'` key (and also the empty dict `{}` returned on failure); a `node`
carries the `'id'` and `'name'` entries and the two optional subtrees. -/
inductive Ped where
  | missing : Ped
  | node (id : Option String) (name : Option String) (sire dam : Ped) : Ped
deriving DecidableEq, Repr

/-- Walk `path` from `t` (`'1'` = into the sire child, `'2'` = into the dam
child) and set the `branch` child of the reached node to `n`.  Walking into
an absent child is the Python `KeyError`, i.e. `none`. -/
def setPath : Ped → List Char → Char → Ped → Option Ped
  | .missing, _, _, _ => none
  | .node i nm s d, [], branch, n =>
    some (if branch == '1' then .node i nm n d else .node i nm s n)
  | .node i nm s d, c :: cs, branch, n =>
    if c == '1' then (setPath s cs branch n).map fun s' => .node i nm s' d
    else (setPath d cs branch n).map fun d' => .node i nm s d'

/-- The node built for a generation > 1 row: its own sire/dam placeholder
entries are attached only when `generation < depth`. -/
def mkNode (depth : Nat) (r : PedRow) : Ped :=
  if r.generation < depth then
    .node (some r.horse_id) r.horse_name
      (.node r.sire_id r.sire_name .missing .missing)
      (.node r.dam_id r.dam_name .missing .missing)
  else .node (some r.horse_id) r.horse_name .missing .missing

/-- The root node built for the generation 1 row: its sire/dam entries are
always seeded from the record's own reference fields (no depth check). -/
def rootNode (r : PedRow) : Ped :=
  .node (some r.horse_id) r.horse_name
    (.node r.sire_id r.sire_name .missing .missing)
    (.node r.dam_id r.dam_name .missing .missing)

/-- The Python reshaping loop over the ordered CTE rows: a generation 1 row
replaces the whole tree by the root node; a later row is attached under the
node located by decoding its position string (`parent_pos = pos[:-1]`, walk
`parent_pos[1:]`, attach on the side given by the last character). -/
def reshape (depth : Nat) : List PedRow → Ped → Option Ped
  | [], t => some t
  | r :: rs, t =>
    if r.generation = 1 then reshape depth rs (rootNode r)
    else
      match r.position.getLast? with
      | none => none
      | some c =>
        match setPath t (r.position.dropLast.drop 1) c (mkNode depth r) with
        | none => none
        | some t' => reshape depth rs t'

/-- `BloodFeatureGenerator.get_pedigree_tree`: a requested depth above 3 is
clamped to 3; a failed query, an empty result, or a reshaping error all
yield the empty dict. -/
def get_pedigree_tree (fetch : Except Unit (String → Option UmRow))
    (horse_id : String) (depth : Nat) : Ped :=
  let d := if depth > 3 then 3 else depth
  match fetch with
  | .error _ => .missing
  | .ok db =>
    let rows := pedRows db horse_id d
    if rows.isEmpty then .missing
    else
      match reshape d rows .missing with
      | none => .missing
      | some t => t

/-- Whether every node sitting at generation `dep` (counting the node at
depth `g`) with generation at least 2 carries no sire/dam entries. -/
def bareAtDepth : Ped → Nat → Nat → Bool
  | .missing, _, _ => true
  | .node _ _ s d, g, dep =>
    (!(g == dep && decide (2 ≤ g)) || (s == .missing && d == .missing))
      && bareAtDepth s (g + 1) dep && bareAtDepth d (g + 1) dep

/-- Whether every node sitting at generation `dep` — the root included —
carries no sire/dam entries (the claim as stated). -/
def bareAtDepthClaim : Ped → Nat → Nat → Bool
  | .missing, _, _ => true
  | .node _ _ s d, g, dep =>
    (!(g == dep) || (s == .missing && d == .missing))
      && bareAtDepthClaim s (g + 1) dep && bareAtDepthClaim d (g + 1) dep

/-! ## Key sets of the `get_jockey_course_feature` dict -/

/-- The keys of the degraded `get_jockey_course_feature` dict, in order. -/
def gjcfDegradedKeys : List String :=
  ["jockey_id", "jockey_name", "course_name", "track_type",
   "distance_category", "total_races", "wins", "win_rate", "roi_percentage",
   "avg_win_odds", "course_aptitude_index", "win_rate_ratio"]

/-- The keys of the successful `get_jockey_course_feature` dict (the
20-column `SELECT` list), in order. -/
def gjcfSuccessKeys : List String :=
  ["jockey_id", "jockey_name", "course_name", "track_type",
   "distance_category", "total_races", "wins", "top3_finishes", "win_rate",
   "top3_rate", "roi_percentage", "avg_win_odds", "avg_popularity",
   "middle_odds_wins", "longshot_wins", "all_total_races", "all_win_rate",
   "all_roi_percentage", "course_aptitude_index", "win_rate_ratio"]

/-- The keys a successful `get_jockey_course_feature` dict carries but the
degraded dict omits. -/
def c9MissingKeys : List String :=
  ["top3_finishes", "top3_rate", "avg_popularity", "middle_odds_wins",
   "longshot_wins", "all_total_races", "all_win_rate",
   "all_roi_percentage"]

/-! ## Concrete test data -/

/-- A winning turf/good race row: sire `S1`, jockey `K1`, Tokyo, 1600 m,
odds 3.0 (raw 30), second favourite, year 2020. -/
def winRow : RaceRow :=
  { kishu_code := "K1", kishumei_ryakusho := "KN", keibajo_code := "05",
    track_code := "10", babajotai_code_shiba := "1", babajotai_code_dirt := "0",
    kyori := 1600, kakutei_chakujun := "01", tansho_odds := some 30,
    tansho_ninkijun := some 2, kaisai_nen := "2020",
    ketto_joho_01a := "S1", ketto_joho_01b := "SN" }

/-- The same row finishing fourth. -/
def loseRow : RaceRow := { winRow with kakutei_chakujun := "04" }

/-- 25 turf/good races of sire `S1`: 10 wins at odds 3.0 and 15 losses. -/
def c5rows : List RaceRow :=
  List.replicate 10 winRow ++ List.replicate 15 loseRow

/-- A winning row at odds 5.0 (raw 50). -/
def win5Row : RaceRow := { winRow with tansho_odds := some 50 }

/-- 5 turf/good races of sire `S1`: 1 win at odds 5.0 and 4 losses. -/
def c1rows : List RaceRow := win5Row :: List.replicate 4 loseRow

/-- A losing row of sire `SB`. -/
def loseRowB : RaceRow := { loseRow with ketto_joho_01a := "SB" }

/-- 20 turf/good races of sire `S1` (1 win) plus 5 races of sire `SB`:
only `S1` meets the 20-race rank threshold. -/
def c2rows : List RaceRow :=
  winRow :: List.replicate 19 loseRow ++ List.replicate 5 loseRowB

/-- A losing row ridden as 5th favourite (mid-popularity tier). -/
def c4midRow : RaceRow := { loseRow with tansho_ninkijun := some 5 }

/-- A winning row at odds 30.0 ridden as 9th favourite (longshot tier). -/
def c4bigRow : RaceRow :=
  { winRow with tansho_ninkijun := some 9, tansho_odds := some 300 }

/-- One mid-popularity race and one longshot race of the same jockey. -/
def c4rows : List RaceRow := [c4midRow, c4bigRow]

/-- A row carrying the non-finish sentinel code `99`. -/
def r99 : RaceRow := { winRow with kakutei_chakujun := "99" }

/-- A one-horse `jvd_um` registry: horse `R` with known sire and dam. -/
def db8 : String → Option UmRow := fun h =>
  if h == "R" then
    some { bamei := "R", ketto_joho_01a := some "S1",
           ketto_joho_01b := some "SN", ketto_joho_02a := some "D1",
           ketto_joho_02b := some "DN" }
  else none

/-! ## General lemmas about the embedding combinators -/

theorem round2_mono {q r : ℚ} (h : q ≤ r) : round2 q ≤ round2 r := by
  unfold round2
  gcongr
  rcases lt_or_le q 0 with hq | hq
  · rcases lt_or_le r 0 with hr | hr
    · rw [if_pos hq, if_pos hr]
      have : ⌊-(r * 100) + 1/2⌋ ≤ ⌊-(q * 100) + 1/2⌋ := Int.floor_mono (by nlinarith)
      omega
    · rw [if_pos hq, if_neg (not_lt.2 hr)]
      have h1 : (0:ℤ) ≤ ⌊-(q * 100) + 1/2⌋ := Int.floor_nonneg.2 (by nlinarith)
      have h2 : (0:ℤ) ≤ ⌊r * 100 + 1/2⌋ := Int.floor_nonneg.2 (by nlinarith)
      omega
  · rw [if_neg (not_lt.2 hq), if_neg (not_lt.2 (hq.trans h))]
    exact Int.floor_mono (by nlinarith)

/-! ## Insertion sort (deterministic model of SQL `ORDER BY`) -/

theorem insertLe_perm {α : Type} (le : α → α → Bool) (a : α) (l : List α) :
    (insertLe le a l).Perm (a :: l) := by
  induction l with
  | nil => exact List.Perm.refl _
  | cons b t ih =>
    simp only [insertLe]
    by_cases h : le a b
    · simp [h]
    · simp only [h, if_neg, Bool.false_eq_true, not_false_eq_true]
      exact (ih.cons b).trans (List.Perm.swap a b t)

theorem sortBy_perm {α : Type} (le : α → α → Bool) (l : List α) :
    (sortBy le l).Perm l := by
  induction l with
  | nil => exact List.Perm.refl _
  | cons a t ih => exact (insertLe_perm le a (sortBy le t)).trans (ih.cons a)

theorem mem_insertLe {α : Type} {le : α → α → Bool} {a x : α} {l : List α} :
    x ∈ insertLe le a l ↔ x = a ∨ x ∈ l := by
  rw [(insertLe_perm le a l).mem_iff, List.mem_cons]

theorem mem_sortBy {α : Type} {le : α → α → Bool} {x : α} {l : List α} :
    x ∈ sortBy le l ↔ x ∈ l := (sortBy_perm le l).mem_iff

theorem insertLe_pairwise {α : Type} {le : α → α → Bool}
    (htrans : ∀ a b c, le a b = true → le b c = true → le a c = true)
    (htot : ∀ a b, le a b = true ∨ le b a = true)
    (a : α) {l : List α} (hl : l.Pairwise (fun x y => le x y = true)) :
    (insertLe le a l).Pairwise (fun x y => le x y = true) := by
  induction l with
  | nil => simp [insertLe]
  | cons b t ih =>
    rcases List.pairwise_cons.1 hl with ⟨hb, ht⟩
    simp only [insertLe]
    by_cases h : le a b
    · simp only [h, if_pos]
      refine List.pairwise_cons.2 ⟨?_, hl⟩
      intro x hx
      rcases List.mem_cons.1 hx with rfl | hx
      · exact h
      · exact htrans a b x h (hb x hx)
    · simp only [h, if_neg, Bool.false_eq_true, not_false_eq_true]
      refine List.pairwise_cons.2 ⟨?_, ih ht⟩
      intro x hx
      rcases mem_insertLe.1 hx with hxa | hx
      · rw [hxa]
        rcases htot a b with h' | h'
        · exact absurd h' h
        · exact h'
      · exact hb x hx

theorem sortBy_pairwise {α : Type} (le : α → α → Bool)
    (htrans : ∀ a b c, le a b = true → le b c = true → le a c = true)
    (htot : ∀ a b, le a b = true ∨ le b a = true) (l : List α) :
    (sortBy le l).Pairwise (fun x y => le x y = true) := by
  induction l with
  | nil => simp [sortBy]
  | cons a t ih => exact insertLe_pairwise htrans htot a ih

theorem sortBy_nodup {α : Type} {le : α → α → Bool} {l : List α}
    (h : l.Nodup) : (sortBy le l).Nodup := (sortBy_perm le l).nodup_iff.2 h

/-! ## Distinct group keys (model of SQL `GROUP BY` key enumeration) -/

theorem mem_distinctKeys {K : Type} [DecidableEq K] {a : K} {l : List K} :
    a ∈ distinctKeys l ↔ a ∈ l := by
  induction l with
  | nil => simp [distinctKeys]
  | cons k t ih =>
    simp only [distinctKeys]
    by_cases h : k ∈ distinctKeys t
    · simp only [h, if_pos, List.mem_cons, ih]
      constructor
      · exact Or.inr
      · rintro (rfl | hm)
        · exact ih.1 h
        · exact hm
    · simp [h, List.mem_cons, ih]

theorem distinctKeys_nodup {K : Type} [DecidableEq K] (l : List K) :
    (distinctKeys l).Nodup := by
  induction l with
  | nil => simp [distinctKeys]
  | cons k t ih =>
    simp only [distinctKeys]
    by_cases h : k ∈ distinctKeys t
    · simpa [h]
    · simpa [h] using ih

/-! ## Lexicographic string comparison (model of SQL text collation) -/

theorem lexLtB_trans : ∀ {x y z : List Char},
    lexLtB x y = true → lexLtB y z = true → lexLtB x z = true := by
  intro x
  induction x with
  | nil =>
    intro y z hxy hyz
    cases y with
    | nil => simp [lexLtB] at hxy
    | cons b bs =>
      cases z with
      | nil => simp [lexLtB] at hyz
      | cons c cs => simp [lexLtB]
  | cons a as ih =>
    intro y z hxy hyz
    cases y with
    | nil => simp [lexLtB] at hxy
    | cons b bs =>
      cases z with
      | nil => simp [lexLtB] at hyz
      | cons c cs =>
        simp only [lexLtB, Bool.or_eq_true, Bool.and_eq_true, decide_eq_true_eq] at hxy hyz ⊢
        rcases hxy with hab | ⟨rfl, habs⟩
        · rcases hyz with hbc | ⟨rfl, hbcs⟩
          · exact Or.inl (lt_trans hab hbc)
          · exact Or.inl hab
        · rcases hyz with hbc | ⟨rfl, hbcs⟩
          · exact Or.inl hbc
          · exact Or.inr ⟨rfl, ih habs hbcs⟩

theorem lexLtB_total : ∀ x y : List Char,
    lexLtB x y = true ∨ lexLtB y x = true ∨ x = y := by
  intro x
  induction x with
  | nil =>
    intro y
    cases y with
    | nil => exact Or.inr (Or.inr rfl)
    | cons b bs => exact Or.inl (by simp [lexLtB])
  | cons a as ih =>
    intro y
    cases y with
    | nil => exact Or.inr (Or.inl (by simp [lexLtB]))
    | cons b bs =>
      rcases lt_trichotomy a b with hab | rfl | hba
      · exact Or.inl (by simp [lexLtB, hab])
      · rcases ih bs with h | h | rfl
        · exact Or.inl (by simp [lexLtB, h])
        · exact Or.inr (Or.inl (by simp [lexLtB, h]))
        · exact Or.inr (Or.inr rfl)
      · exact Or.inr (Or.inl (by simp [lexLtB, hba]))

/-! ## Comparator for `ORDER BY roi_percentage DESC` -/

theorem roiGeB_trans : ∀ a b c, roiGeB a b = true → roiGeB b c = true →
    roiGeB a c = true := by
  intro a b c hab hbc
  cases a with
  | none => cases b with
    | none => cases c with
      | none => rfl
      | some qc => simp [roiGeB] at hbc
    | some qb => simp [roiGeB] at hab
  | some qa => cases c with
    | none => rfl
    | some qc =>
      cases b with
      | none => simp [roiGeB] at hbc
      | some qb =>
        simp only [roiGeB, decide_eq_true_eq] at hab hbc ⊢
        linarith

theorem roiGeB_total : ∀ a b, roiGeB a b = true ∨ roiGeB b a = true := by
  intro a b
  cases a with
  | none => cases b with
    | none => exact Or.inl rfl
    | some qb => exact Or.inr rfl
  | some qa => cases b with
    | none => exact Or.inl rfl
    | some qb =>
      simp only [roiGeB, decide_eq_true_eq]
      exact le_total qb qa

/-! ## Data model

A `RaceRow` is one row of the join of `jvd_se` (runner result), `jvd_ra`
(race card) and `jvd_um` (horse registry) used by the feature queries:
`kyori` is `CAST(r.kyori AS INTEGER)`, `tansho_odds` is the raw integer
tenths value (`CAST(s.tansho_odds AS NUMERIC)` before the division by 10),
`tansho_ninkijun` is `CAST(s.tansho_ninkijun AS INTEGER)`, and the two
`ketto_joho_01` fields are the sire id/name brought in by the `jvd_um` join.
Nullable columns are `Option`. -/

/-! ## Lemmas about the shared aggregation skeleton -/

theorem mem_sortBy_filter {α : Type} {le : α → α → Bool} {p : α → Bool}
    {l : List α} {g : α} (h : g ∈ sortBy le (l.filter p)) : p g = true :=
  (List.mem_filter.1 (mem_sortBy.1 h)).2

theorem groupsOf_map_fst {K : Type} [DecidableEq K] (pred : RaceRow → Bool)
    (key : RaceRow → K) (rows : List RaceRow) :
    (groupsOf pred key rows).map (fun kg => kg.1) =
      distinctKeys ((rows.filter pred).map key) := by
  simp [groupsOf, List.map_map, Function.comp_def]

theorem groupsOf_congr {K : Type} [DecidableEq K] {pred : RaceRow → Bool}
    {key : RaceRow → K} {rows rows' : List RaceRow}
    (h : rows.filter pred = rows'.filter pred) :
    groupsOf pred key rows = groupsOf pred key rows' := by
  simp only [groupsOf, h]

theorem filter_bad_skip {p : RaceRow → Bool} {r : RaceRow}
    (hpr : p r = false) (l₁ l₂ : List RaceRow) :
    (l₁ ++ r :: l₂).filter p = (l₁ ++ l₂).filter p := by
  simp [List.filter_append, List.filter_cons, hpr]

theorem rankLookup_eq_zero {sid : String} :
    ∀ (l : List (String × Nat × ℚ)) (i : Nat),
      (∀ x ∈ l, x.1 ≠ sid) → rankLookup sid l i = 0 := by
  intro l
  induction l with
  | nil => intro i _; rfl
  | cons x t ih =>
    intro i h
    simp only [rankLookup]
    rw [if_neg]
    · exact ih (i + 1) fun y hy => h y (List.mem_cons_of_mem _ hy)
    · simp only [beq_iff_eq]
      exact h x (List.mem_cons_self x t)

theorem rankLookup_get {sid : String} :
    ∀ (l : List (String × Nat × ℚ)), (l.map (fun x => x.1)).Nodup →
      ∀ (j : Nat) (h : j < l.length), (l.get ⟨j, h⟩).1 = sid →
      ∀ i : Nat, rankLookup sid l i = i + j + 1 := by
  intro l
  induction l with
  | nil => intro _ j h; exact absurd h (by simp)
  | cons x t ih =>
    intro hn j h hget i
    rcases List.pairwise_cons.1 hn with ⟨hx, ht⟩
    cases j with
    | zero =>
      simp only [List.get] at hget
      simp [rankLookup, hget]
    | succ j' =>
      have hmem : (t.get ⟨j', by simpa using h⟩).1 = sid := hget
      have hgm : (t.get ⟨j', by simpa using h⟩).1 ∈ t.map fun y => y.1 :=
        List.mem_map_of_mem _ (t.get_mem _ _)
      have hxne : x.1 ≠ sid := fun he => hx _ hgm (he.trans hmem.symm)
      simp only [rankLookup]
      rw [if_neg (by simpa using hxne)]
      rw [ih ht j' (by simpa using h) hmem (i + 1)]
      omega

/-! ## Claim C1 -/

/-- C1 (counterexample): the claim "every operation producing AggregateStat
records suppresses a group whose `total_races` is below the configured
minimum (default 20), including the single-entity segment statistics of
`get_horse_sire_track_roi_feature`" is false: on a data set where sire `S1`
has only 5 qualifying turf/good races, `get_horse_sire_track_roi_feature`
returns the computed segment statistics (`sire_track_races = 5 < 20`,
non-zero ROI), not the suppressed/zero record — its segment ROI query has no
`HAVING`/min-races filter. -/
theorem c1_counterexample :
    get_horse_sire_track_roi_feature "芝" "良" (.ok [("S1", "SN")])
        (.ok c1rows) (.ok []) =
      { sire_name := some "SN", sire_track_roi := some 100,
        sire_track_win_rate := some 20, sire_track_races := 5,
        sire_track_roi_rank := 0 }
    ∧ ¬ 20 ≤ (5 : Nat)
    ∧ ({ sire_name := some "SN", sire_track_roi := some 100,
         sire_track_win_rate := some 20, sire_track_races := 5,
         sire_track_roi_rank := 0 } : SireTrackFeature) ≠
        zeroSireTrackFeature := by
  refine ⟨?_, by decide, ?_⟩
  · have hf : c1rows.filter (sireSegPred "S1" "芝" "良") = c1rows := by decide
    have hw : c1rows.filter isWin = [win5Row] := by decide
    have hwins : winsOf c1rows = 1 := by decide
    have hlen : c1rows.length = 5 := by decide
    have hrank : sireRoiRank ([] : List RaceRow) "芝" "良" "S1" = 0 := by decide
    simp only [get_horse_sire_track_roi_feature, hf, hrank, hwins, hlen,
      roi_percentageOf, winOddsSum, hw, pctOf, SireTrackFeature.mk.injEq]
    norm_num [win_odds, win5Row, winRow, round2]
  · intro h
    simp [SireTrackFeature.mk.injEq, zeroSireTrackFeature] at h

/-- C1 (amended): the minimum-race suppression holds for the four full
rollup operations (`HAVING COUNT(*) >= min_races`) and for the rank
population of `get_horse_sire_track_roi_feature` (hard-coded 20), but not
for that operation's single-entity segment statistics, which are returned
whatever their `total_races`.  This theorem is the amended suppression
invariant: no rollup output group has `total_races < min_races`, and no
ranking entry has fewer than 20 races. -/
theorem c1_min_races_suppression :
    (∀ since_year min_races fetch,
      ∀ g ∈ get_sire_track_condition_roi since_year min_races fetch,
        min_races ≤ g.total_races)
  ∧ (∀ since_year min_races fetch,
      ∀ g ∈ get_jockey_course_roi since_year min_races fetch,
        min_races ≤ g.total_races)
  ∧ (∀ since_year min_races fetch,
      ∀ g ∈ get_jockey_popularity_roi since_year min_races fetch,
        min_races ≤ g.total_races)
  ∧ (∀ since_year min_races fetch,
      ∀ g ∈ get_jockey_surface_condition_roi since_year min_races fetch,
        min_races ≤ g.total_races)
  ∧ (∀ rows tt tc, ∀ x ∈ sireRanking rows tt tc, 20 ≤ x.2.1) := by
  refine ⟨?_, ?_, ?_, ?_, ?_⟩
  · intro since_year min_races fetch g hg
    cases fetch with
    | error e => simp [get_sire_track_condition_roi] at hg
    | ok rows =>
      simp only [get_sire_track_condition_roi] at hg
      simpa using mem_sortBy_filter hg
  · intro since_year min_races fetch g hg
    cases fetch with
    | error e => simp [get_jockey_course_roi] at hg
    | ok rows =>
      simp only [get_jockey_course_roi] at hg
      simpa using mem_sortBy_filter hg
  · intro since_year min_races fetch g hg
    cases fetch with
    | error e => simp [get_jockey_popularity_roi] at hg
    | ok rows =>
      simp only [get_jockey_popularity_roi] at hg
      simpa using mem_sortBy_filter hg
  · intro since_year min_races fetch g hg
    cases fetch with
    | error e => simp [get_jockey_surface_condition_roi] at hg
    | ok rows =>
      simp only [get_jockey_surface_condition_roi] at hg
      simpa using mem_sortBy_filter hg
  · intro rows tt tc x hx
    simp only [sireRanking] at hx
    simpa using mem_sortBy_filter hx

/-- C1 (witness): the suppression invariant applied at a concrete input:
with `min_races = 1`, the single output group of
`get_sire_track_condition_roi` over one winning row has at least one
race. -/
theorem c1_min_races_suppression_witness :
    1 ≤ (mkSireCondRow ("S1", "SN", "芝", "良") [winRow]).total_races := by
  apply c1_min_races_suppression.1 "2000" 1 (.ok [winRow])
  have hg : groupsOf (sireCondPred "2000") sireCondKey [winRow] =
      [(("S1", "SN", "芝", "良"), [winRow])] := by decide
  simp only [get_sire_track_condition_roi]
  rw [hg]
  simp [sortBy, insertLe, mkSireCondRow]

/-! ## Claim C2 -/

/-- C2: within each peer group (one `track_type`/`track_condition` segment),
the ranker assigns distinct ranks `1..K` to exactly the `K` sires meeting
the 20-race threshold, ordered by descending `roi_percentage`; a sire below
the threshold, or absent from the filtered population, receives the
sentinel rank 0 and never a nonzero rank.  Concretely: the ranking's sires
are pairwise distinct and are exactly `qualSires`; every ranking entry has
at least 20 races; the ranking is weakly descending in the rounded ROI
percentage; the `j`-th ranked sire receives rank `j + 1`; and a sire
outside the qualifying population receives rank 0. -/
theorem c2_ranker (rows : List RaceRow) (tt tc : String) :
    ((sireRanking rows tt tc).map (fun x => x.1)).Nodup
  ∧ (∀ x ∈ sireRanking rows tt tc, 20 ≤ x.2.1)
  ∧ (∀ s, s ∈ (sireRanking rows tt tc).map (fun x => x.1) ↔
        s ∈ qualSires rows tt tc)
  ∧ (sireRanking rows tt tc).Pairwise
      (fun a b => round2 (b.2.2 * 100) ≤ round2 (a.2.2 * 100))
  ∧ (∀ (j : Nat) (h : j < (sireRanking rows tt tc).length),
        sireRoiRank rows tt tc ((sireRanking rows tt tc).get ⟨j, h⟩).1 = j + 1)
  ∧ (∀ s, s ∉ qualSires rows tt tc → sireRoiRank rows tt tc s = 0) := by
  have hA : (((groupsOf (rankSegPred tt tc) (fun r => r.ketto_joho_01a)
        rows).map
      (fun kg => (kg.1, kg.2.length, winOddsSum kg.2 / (kg.2.length : ℚ)))).filter
        fun x => 20 ≤ x.2.1) =
      ((groupsOf (rankSegPred tt tc) (fun r => r.ketto_joho_01a) rows).filter
        fun kg => 20 ≤ kg.2.length).map
        fun kg => (kg.1, kg.2.length, winOddsSum kg.2 / (kg.2.length : ℚ)) := by
    rw [List.filter_map]
    exact congrArg _ (List.filter_congr fun kg _ => rfl)
  have hperm : (sireRanking rows tt tc).Perm
      (((groupsOf (rankSegPred tt tc) (fun r => r.ketto_joho_01a) rows).filter
        fun kg => 20 ≤ kg.2.length).map
        fun kg => (kg.1, kg.2.length, winOddsSum kg.2 / (kg.2.length : ℚ))) := by
    unfold sireRanking
    rw [hA]
    exact sortBy_perm _ _
  have hfst : ((((groupsOf (rankSegPred tt tc) (fun r => r.ketto_joho_01a)
        rows).filter fun kg => 20 ≤ kg.2.length).map
        fun kg => (kg.1, kg.2.length, winOddsSum kg.2 / (kg.2.length : ℚ))).map
          fun x => x.1) = qualSires rows tt tc := by
    simp [qualSires, List.map_map, Function.comp_def]
  have hnd0 : ((groupsOf (rankSegPred tt tc) (fun r => r.ketto_joho_01a)
      rows).map fun kg => kg.1).Nodup := by
    rw [groupsOf_map_fst]
    exact distinctKeys_nodup _
  have hndq : (qualSires rows tt tc).Nodup := by
    unfold qualSires
    exact List.Nodup.sublist ((List.filter_sublist _).map _) hnd0
  have h1 : ((sireRanking rows tt tc).map fun x => x.1).Nodup := by
    rw [List.Perm.nodup_iff (hperm.map _), hfst]
    exact hndq
  have h3 : ∀ s, s ∈ (sireRanking rows tt tc).map (fun x => x.1) ↔
      s ∈ qualSires rows tt tc := by
    intro s
    rw [List.Perm.mem_iff (hperm.map _), hfst]
  have h2 : ∀ x ∈ sireRanking rows tt tc, 20 ≤ x.2.1 := by
    intro x hx
    unfold sireRanking at hx
    simpa using mem_sortBy_filter hx
  have h4 : (sireRanking rows tt tc).Pairwise
      fun a b => round2 (b.2.2 * 100) ≤ round2 (a.2.2 * 100) := by
    have hs := sortBy_pairwise
      (fun a b : String × Nat × ℚ => decide (b.2.2 ≤ a.2.2))
      (fun a b c hab hbc => by
        simp only [decide_eq_true_eq] at *
        exact le_trans hbc hab)
      (fun a b => by
        simp only [decide_eq_true_eq]
        exact le_total b.2.2 a.2.2)
      (((groupsOf (rankSegPred tt tc) (fun r => r.ketto_joho_01a) rows).map
        (fun kg =>
          (kg.1, kg.2.length, winOddsSum kg.2 / (kg.2.length : ℚ)))).filter
        fun x => 20 ≤ x.2.1)
    unfold sireRanking
    refine hs.imp fun hab => ?_
    simp only [decide_eq_true_eq] at hab
    exact round2_mono (by nlinarith)
  have h5 : ∀ (j : Nat) (h : j < (sireRanking rows tt tc).length),
      sireRoiRank rows tt tc ((sireRanking rows tt tc).get ⟨j, h⟩).1 =
        j + 1 := by
    intro j h
    unfold sireRoiRank
    rw [rankLookup_get (sireRanking rows tt tc) h1 j h rfl 0]
    omega
  have h6 : ∀ s, s ∉ qualSires rows tt tc → sireRoiRank rows tt tc s = 0 := by
    intro s hs
    unfold sireRoiRank
    apply rankLookup_eq_zero
    intro x hx he
    exact hs ((h3 s).1 (by rw [← he]; exact List.mem_map_of_mem _ hx))
  exact ⟨h1, h2, h3, h4, h5, h6⟩

/-- C2 (witness): on a concrete data set where sire `S1` has 20 turf/good
races and sire `SB` only 5, the below-threshold sire `SB` receives rank 0,
and the first-ranked sire receives rank 1. -/
theorem c2_ranker_witness :
    sireRoiRank c2rows "芝" "良" "SB" = 0 ∧
    sireRoiRank c2rows "芝" "良"
      ((sireRanking c2rows "芝" "良").get ⟨0, by decide⟩).1 = 0 + 1 := by
  constructor
  · exact (c2_ranker c2rows "芝" "良").2.2.2.2.2 "SB" (by decide)
  · exact (c2_ranker c2rows "芝" "良").2.2.2.2.1 0 (by decide)

/-! ## Claim C3 -/

/-- C3 (counterexample): the claim "when the underlying query raises any
exception the operation returns an empty DataFrame, an empty dict, or a
zero/null-filled feature record" is false for
`get_horse_sire_track_roi_feature` when only the rank sub-query fails:
the operation returns the computed segment statistics (ROI 120, win rate
40, 25 races) with rank 0 — a record that is neither empty nor
zero/null-filled (though no exception is re-raised). -/
theorem c3_counterexample :
    get_horse_sire_track_roi_feature "芝" "良" (.ok [("S1", "SN")])
        (.ok c5rows) (.error ()) =
      { sire_name := some "SN", sire_track_roi := some 120,
        sire_track_win_rate := some 40, sire_track_races := 25,
        sire_track_roi_rank := 0 }
    ∧ ({ sire_name := some "SN", sire_track_roi := some 120,
         sire_track_win_rate := some 40, sire_track_races := 25,
         sire_track_roi_rank := 0 } : SireTrackFeature) ≠
        zeroSireTrackFeature := by
  constructor
  · have hf : c5rows.filter (sireSegPred "S1" "芝" "良") = c5rows := by decide
    have hw : c5rows.filter isWin = List.replicate 10 winRow := by decide
    have hwins : winsOf c5rows = 10 := by decide
    have hlen : c5rows.length = 25 := by decide
    simp only [get_horse_sire_track_roi_feature, hf, hwins, hlen,
      roi_percentageOf, winOddsSum, hw, pctOf, SireTrackFeature.mk.injEq]
    norm_num [win_odds, winRow, List.replicate, round2]
  · intro h
    simp [SireTrackFeature.mk.injEq, zeroSireTrackFeature] at h

/-- C3 (amended): every public operation is total with respect to
data-access failure — a failed query is caught and never re-raised.  A
failure of an operation's own (or first) query yields the empty list, the
degraded dict, or the zero-filled feature record; the one exception to the
"empty/zero result" shape is `get_horse_sire_track_roi_feature` when only
its rank sub-query fails, which returns the already-computed segment
statistics (the sire name in particular is preserved) with rank 0. -/
theorem c3_totality :
    (∀ since_year min_races e,
      get_sire_track_condition_roi since_year min_races (.error e) = [])
  ∧ (∀ since_year min_races e,
      get_jockey_course_roi since_year min_races (.error e) = [])
  ∧ (∀ since_year min_races e,
      get_jockey_popularity_roi since_year min_races (.error e) = [])
  ∧ (∀ since_year min_races e,
      get_jockey_surface_condition_roi since_year min_races (.error e) = [])
  ∧ (∀ tt tc e roiF rankF,
      get_horse_sire_track_roi_feature tt tc (.error e) roiF rankF =
        zeroSireTrackFeature)
  ∧ (∀ tt tc roiF rankF,
      get_horse_sire_track_roi_feature tt tc (.ok []) roiF rankF =
        zeroSireTrackFeature)
  ∧ (∀ tt tc sid sname rest e rankF,
      get_horse_sire_track_roi_feature tt tc (.ok ((sid, sname) :: rest))
        (.error e) rankF = zeroSireTrackFeature)
  ∧ (∀ tt tc sid sname rest rows e,
      (get_horse_sire_track_roi_feature tt tc (.ok ((sid, sname) :: rest))
        (.ok rows) (.error e)).sire_track_roi_rank = 0 ∧
      (get_horse_sire_track_roi_feature tt tc (.ok ((sid, sname) :: rest))
        (.ok rows) (.error e)).sire_name = some sname)
  ∧ (∀ jockey_id cn tt dc e,
      get_jockey_course_feature jockey_id cn tt dc (.error e) =
        gjcfDegraded jockey_id cn tt dc)
  ∧ (∀ horse_id depth e,
      get_pedigree_tree (.error e) horse_id depth = Ped.missing) := by
  refine ⟨?_, ?_, ?_, ?_, ?_, ?_, ?_, ?_, ?_, ?_⟩ <;> intros <;>
    first
      | rfl
      | exact ⟨rfl, rfl⟩

/-! ## Claim C4 -/

theorem stringDataEq {a b : String} (h : a.data = b.data) : a = b := by
  cases a
  cases b
  exact congrArg String.mk h

theorem popRowLe_trans : ∀ a b c, popRowLe a b = true → popRowLe b c = true →
    popRowLe a c = true := by
  intro a b c hab hbc
  simp only [popRowLe, Bool.or_eq_true, Bool.and_eq_true, beq_iff_eq,
    strLtB] at hab hbc ⊢
  rcases hab with h1 | ⟨he1, hr1⟩
  · rcases hbc with h2 | ⟨he2, hr2⟩
    · exact Or.inl (lexLtB_trans h1 h2)
    · exact Or.inl (by rw [← he2]; exact h1)
  · rcases hbc with h2 | ⟨he2, hr2⟩
    · exact Or.inl (by rw [he1]; exact h2)
    · exact Or.inr ⟨he1.trans he2, roiGeB_trans _ _ _ hr1 hr2⟩

theorem popRowLe_total : ∀ a b, popRowLe a b = true ∨ popRowLe b a = true := by
  intro a b
  simp only [popRowLe, Bool.or_eq_true, Bool.and_eq_true, beq_iff_eq, strLtB]
  rcases lexLtB_total a.popularity_category.data b.popularity_category.data
    with h | h | h
  · exact Or.inl (Or.inl h)
  · exact Or.inr (Or.inl h)
  · have he : a.popularity_category = b.popularity_category := stringDataEq h
    rcases roiGeB_total a.roi_percentage b.roi_percentage with hr | hr
    · exact Or.inl (Or.inr ⟨he, hr⟩)
    · exact Or.inr (Or.inr ⟨he.symm, hr⟩)

/-- C4 (counterexample): the claim "every multi-group rollup is ordered
descending by `roi_percentage`" is false for `get_jockey_popularity_roi`,
whose `ORDER BY popularity_category, roi_percentage DESC` sorts by the
category string first: on one mid-popularity losing race (ROI 0) and one
longshot winning race (ROI 3000) the output is `[0, 3000]`, which is not
descending. -/
theorem c4_counterexample :
    ((get_jockey_popularity_roi "2000" 1 (.ok c4rows)).map
      (fun g => g.roi_percentage) = [some 0, some 3000])
    ∧ ¬ ((get_jockey_popularity_roi "2000" 1 (.ok c4rows)).Pairwise
        fun a b => roiGeB a.roi_percentage b.roi_percentage = true) := by
  have hlist : get_jockey_popularity_roi "2000" 1 (.ok c4rows) =
      [mkJockeyPopRow ("K1", "KN", "中穴（4-8位）") [c4midRow],
       mkJockeyPopRow ("K1", "KN", "大穴（9位-）") [c4bigRow]] := by rfl
  have hwm : ([c4midRow]).filter isWin = [] := by decide
  have hwb : ([c4bigRow]).filter isWin = [c4bigRow] := by decide
  have hmap : (get_jockey_popularity_roi "2000" 1 (.ok c4rows)).map
      (fun g => g.roi_percentage) = [some 0, some 3000] := by
    rw [hlist]
    simp only [List.map_cons, List.map_nil, mkJockeyPopRow, roi_percentageOf,
      winOddsSum, hwm, hwb, List.length_cons, List.length_nil, List.sum_nil]
    norm_num [win_odds, c4bigRow, winRow, round2]
  refine ⟨hmap, fun hp => ?_⟩
  have hp' : ((get_jockey_popularity_roi "2000" 1 (.ok c4rows)).map
      fun g => g.roi_percentage).Pairwise
        (fun x y => roiGeB x y = true) :=
    List.Pairwise.map _ (fun a b h => h) hp
  rw [hmap] at hp'
  have := (List.pairwise_cons.1 hp').1 (some 3000) (by simp)
  simp only [roiGeB, decide_eq_true_eq] at this
  norm_num at this

/-- C4 (amended): `get_sire_track_condition_roi`, `get_jockey_course_roi`
and `get_jockey_surface_condition_roi` return their groups ordered
descending by `roi_percentage` (nulls last); `get_jockey_popularity_roi`
is instead ordered by `popularity_category` first and only within one
category descending by `roi_percentage`. -/
theorem c4_ordering :
    (∀ since_year min_races fetch,
      (get_sire_track_condition_roi since_year min_races fetch).Pairwise
        fun a b => roiGeB a.roi_percentage b.roi_percentage = true)
  ∧ (∀ since_year min_races fetch,
      (get_jockey_course_roi since_year min_races fetch).Pairwise
        fun a b => roiGeB a.roi_percentage b.roi_percentage = true)
  ∧ (∀ since_year min_races fetch,
      (get_jockey_surface_condition_roi since_year min_races fetch).Pairwise
        fun a b => roiGeB a.roi_percentage b.roi_percentage = true)
  ∧ (∀ since_year min_races fetch,
      (get_jockey_popularity_roi since_year min_races fetch).Pairwise
        fun a b => popRowLe a b = true) := by
  refine ⟨?_, ?_, ?_, ?_⟩
  · intro since_year min_races fetch
    cases fetch with
    | error e => simp [get_sire_track_condition_roi]
    | ok rows =>
      simp only [get_sire_track_condition_roi]
      apply sortBy_pairwise
      · exact fun a b c hab hbc => roiGeB_trans _ _ _ hab hbc
      · exact fun a b => roiGeB_total _ _
  · intro since_year min_races fetch
    cases fetch with
    | error e => simp [get_jockey_course_roi]
    | ok rows =>
      simp only [get_jockey_course_roi]
      apply sortBy_pairwise
      · exact fun a b c hab hbc => roiGeB_trans _ _ _ hab hbc
      · exact fun a b => roiGeB_total _ _
  · intro since_year min_races fetch
    cases fetch with
    | error e => simp [get_jockey_surface_condition_roi]
    | ok rows =>
      simp only [get_jockey_surface_condition_roi]
      apply sortBy_pairwise
      · exact fun a b c hab hbc => roiGeB_trans _ _ _ hab hbc
      · exact fun a b => roiGeB_total _ _
  · intro since_year min_races fetch
    cases fetch with
    | error e => simp [get_jockey_popularity_roi]
    | ok rows =>
      simp only [get_jockey_popularity_roi]
      exact sortBy_pairwise popRowLe popRowLe_trans popRowLe_total _

/-! ## Claim C5 -/

/-- C5: on a segment of exactly 25 qualifying races of which 10 are wins,
each at decimal odds 3.0 (stored as the raw integer tenths 30 and divided
by 10), the aggregate has `total_races = 25`, `win_rate = 40.00` and
`roi_percentage = (10 * 3.0 / 25) * 100 = 120.00`, both rounded to two
decimal places. -/
theorem c5_scenario :
    (get_sire_track_condition_roi "2000" 20 (.ok c5rows)).map
      (fun g => (g.total_races, g.win_rate, g.roi_percentage)) =
      [(25, some 40, some 120)] := by
  have hlist : get_sire_track_condition_roi "2000" 20 (.ok c5rows) =
      [mkSireCondRow ("S1", "SN", "芝", "良") c5rows] := by rfl
  have hw : c5rows.filter isWin = List.replicate 10 winRow := by decide
  have hwins : winsOf c5rows = 10 := by decide
  have hlen : c5rows.length = 25 := by decide
  rw [hlist]
  simp only [List.map_cons, List.map_nil, mkSireCondRow, hwins, hlen,
    roi_percentageOf, winOddsSum, hw, pctOf]
  norm_num [List.replicate, win_odds, winRow, round2]

/-! ## Claim C6 -/

/-- C6: a record whose finish position is a sentinel code (`00` or `99`),
or is not a string of digits, or whose win odds are NULL, is excluded from
every aggregate of every operation: inserting such a record anywhere in the
underlying rows leaves the output of all four rollups, of both queries of
`get_horse_sire_track_roi_feature`, and of `get_jockey_course_feature`
unchanged. -/
theorem c6_sentinel_excluded (r : RaceRow)
    (hbad : r.kakutei_chakujun = "00" ∨ r.kakutei_chakujun = "99" ∨
      isNumericStr r.kakutei_chakujun = false ∨ r.tansho_odds = none)
    (l₁ l₂ : List RaceRow) :
    (∀ since_year min_races,
      get_sire_track_condition_roi since_year min_races (.ok (l₁ ++ r :: l₂)) =
      get_sire_track_condition_roi since_year min_races (.ok (l₁ ++ l₂)))
  ∧ (∀ since_year min_races,
      get_jockey_course_roi since_year min_races (.ok (l₁ ++ r :: l₂)) =
      get_jockey_course_roi since_year min_races (.ok (l₁ ++ l₂)))
  ∧ (∀ since_year min_races,
      get_jockey_popularity_roi since_year min_races (.ok (l₁ ++ r :: l₂)) =
      get_jockey_popularity_roi since_year min_races (.ok (l₁ ++ l₂)))
  ∧ (∀ since_year min_races,
      get_jockey_surface_condition_roi since_year min_races
          (.ok (l₁ ++ r :: l₂)) =
      get_jockey_surface_condition_roi since_year min_races (.ok (l₁ ++ l₂)))
  ∧ (∀ tt tc sireF rankF,
      get_horse_sire_track_roi_feature tt tc sireF (.ok (l₁ ++ r :: l₂))
          rankF =
      get_horse_sire_track_roi_feature tt tc sireF (.ok (l₁ ++ l₂)) rankF)
  ∧ (∀ tt tc sireF roiF,
      get_horse_sire_track_roi_feature tt tc sireF roiF
          (.ok (l₁ ++ r :: l₂)) =
      get_horse_sire_track_roi_feature tt tc sireF roiF (.ok (l₁ ++ l₂)))
  ∧ (∀ jockey_id cn tt dc,
      get_jockey_course_feature jockey_id cn tt dc (.ok (l₁ ++ r :: l₂)) =
      get_jockey_course_feature jockey_id cn tt dc (.ok (l₁ ++ l₂))) := by
  have hq : qualifies r = false := by
    rcases hbad with h | h | h | h
    · simp [qualifies, h]
    · simp [qualifies, h]
    · simp [qualifies, h]
    · simp [qualifies, h]
  have hrank : ∀ tt tc, sireRanking (l₁ ++ r :: l₂) tt tc =
      sireRanking (l₁ ++ l₂) tt tc := by
    intro tt tc
    unfold sireRanking
    rw [groupsOf_congr (filter_bad_skip (by simp [rankSegPred, hq]) l₁ l₂)]
  refine ⟨?_, ?_, ?_, ?_, ?_, ?_, ?_⟩
  · intro since_year min_races
    simp only [get_sire_track_condition_roi]
    rw [groupsOf_congr (filter_bad_skip (by simp [sireCondPred, hq]) l₁ l₂)]
  · intro since_year min_races
    simp only [get_jockey_course_roi]
    rw [groupsOf_congr (filter_bad_skip (by simp [jockeyPred, hq]) l₁ l₂)]
  · intro since_year min_races
    simp only [get_jockey_popularity_roi]
    rw [groupsOf_congr (filter_bad_skip (by simp [jockeyPopPred, hq]) l₁ l₂)]
  · intro since_year min_races
    simp only [get_jockey_surface_condition_roi]
    rw [groupsOf_congr (filter_bad_skip (by simp [jockeyPred, hq]) l₁ l₂)]
  · intro tt tc sireF rankF
    cases sireF with
    | error e => rfl
    | ok si =>
      cases si with
      | nil => rfl
      | cons hd rest =>
        obtain ⟨sid, sname⟩ := hd
        simp only [get_horse_sire_track_roi_feature]
        rw [filter_bad_skip (by simp [sireSegPred, hq]) l₁ l₂]
  · intro tt tc sireF roiF
    cases sireF with
    | error e => rfl
    | ok si =>
      cases si with
      | nil => rfl
      | cons hd rest =>
        obtain ⟨sid, sname⟩ := hd
        cases roiF with
        | error e => rfl
        | ok rows =>
          simp only [get_horse_sire_track_roi_feature, sireRoiRank, hrank]
  · intro jockey_id cn tt dc
    have hseg : ∀ cc, gjcfSeg jockey_id cc tt dc (l₁ ++ r :: l₂) =
        gjcfSeg jockey_id cc tt dc (l₁ ++ l₂) := by
      intro cc
      unfold gjcfSeg
      exact filter_bad_skip (by simp [hq]) l₁ l₂
    have halls : gjcfAll jockey_id (l₁ ++ r :: l₂) =
        gjcfAll jockey_id (l₁ ++ l₂) := by
      unfold gjcfAll
      exact filter_bad_skip (by simp [hq]) l₁ l₂
    simp only [get_jockey_course_feature, hseg, halls]

/-- C6 (witness): inserting a record with sentinel finish position `99`
after a qualifying row leaves `get_sire_track_condition_roi` unchanged. -/
theorem c6_sentinel_excluded_witness :
    get_sire_track_condition_roi "2000" 20 (.ok ([winRow] ++ r99 :: [])) =
    get_sire_track_condition_roi "2000" 20 (.ok ([winRow] ++ [])) :=
  (c6_sentinel_excluded r99 (by decide) [winRow] []).1 "2000" 20

/-! ## Claim C7 -/

/-- C7: a requested pedigree depth greater than 3 is silently clamped to 3,
so requesting any depth above 3 (e.g. 5) behaves identically to requesting
depth 3; and when the data source holds no registry row for the root
horse id, the operation returns the empty result, not an exception. -/
theorem c7_depth_clamp (fetch : Except Unit (String → Option UmRow))
    (horse_id : String) (d : Nat) (hd : 3 < d) :
    get_pedigree_tree fetch horse_id d = get_pedigree_tree fetch horse_id 3
  ∧ (∀ db, fetch = .ok db → db horse_id = none →
      get_pedigree_tree fetch horse_id d = Ped.missing) := by
  constructor
  · simp only [get_pedigree_tree, if_pos hd, if_neg (lt_irrefl 3)]
  · rintro db rfl hnone
    simp [get_pedigree_tree, pedRows, hnone]

/-- C7 (witness): over an empty registry, depth 5 behaves as depth 3 and
the result is the empty tree. -/
theorem c7_depth_clamp_witness :
    get_pedigree_tree (.ok fun _ => none) "X" 5 =
      get_pedigree_tree (.ok fun _ => none) "X" 3
    ∧ get_pedigree_tree (.ok fun _ => none) "X" 5 = Ped.missing := by
  have h := c7_depth_clamp (.ok fun _ => none) "X" 5 (by decide)
  exact ⟨h.1, h.2 _ rfl rfl⟩

/-! ## Claim C8 -/

theorem childOf_spec (db : String → Option UmRow) (p : PedRow) (b : Char)
    (c : PedRow) (h : childOf db p b = some c) :
    c.generation = p.generation + 1 ∧ c.position = p.position ++ [b] := by
  unfold childOf at h
  split at h
  · exact absurd h (by simp)
  · split at h
    · exact absurd h (by simp)
    · have he := Option.some.inj h
      subst he
      exact ⟨rfl, rfl⟩

theorem genList_spec (db : String → Option UmRow) (depth : Nat)
    (hid : String) (u : UmRow) :
    ∀ n, ∀ c ∈ genList db depth [baseRow hid u] n,
      c.position.length = c.generation ∧ c.generation = n + 1 := by
  intro n
  induction n with
  | zero =>
    intro c hc
    simp only [genList, List.mem_singleton] at hc
    subst hc
    exact ⟨rfl, rfl⟩
  | succ m ih =>
    intro c hc
    simp only [genList, nextGen, List.mem_flatMap] at hc
    obtain ⟨p, hp, hcp⟩ := hc
    rcases ih p hp with ⟨hplen, hpgen⟩
    split at hcp
    · rcases List.mem_append.1 hcp with hm | hm
      · have hcs := childOf_spec db p '1' c (Option.mem_toList.1 hm)
        refine ⟨?_, by omega⟩
        rw [hcs.2, List.length_append, hplen, hcs.1]
        rfl
      · have hcs := childOf_spec db p '2' c (Option.mem_toList.1 hm)
        refine ⟨?_, by omega⟩
        rw [hcs.2, List.length_append, hplen, hcs.1]
        rfl
    · exact absurd hcp (by simp)

theorem pedRows_spec (db : String → Option UmRow) (hid : String)
    (depth : Nat) :
    ∀ c ∈ pedRows db hid depth,
      c.position.length = c.generation ∧ c.generation ≤ max depth 1 := by
  intro c hc
  unfold pedRows at hc
  cases hdb : db hid with
  | none => rw [hdb] at hc; exact absurd hc (by simp)
  | some u =>
    rw [hdb] at hc
    rcases List.mem_flatMap.1 hc with ⟨n, hn, hcn⟩
    rcases genList_spec db depth hid u n c hcn with ⟨h1, h2⟩
    have := List.mem_range.1 hn
    exact ⟨h1, by omega⟩

theorem rootNode_bare (dep : Nat) (r : PedRow) :
    bareAtDepth (rootNode r) 1 dep = true := by
  simp [rootNode, bareAtDepth]

theorem mkNode_bare (dep : Nat) (r : PedRow) :
    bareAtDepth (mkNode dep r) r.generation dep = true := by
  unfold mkNode
  by_cases h : r.generation < dep
  · have hne : (r.generation == dep) = false := beq_eq_false_iff_ne.2 (by omega)
    simp [bareAtDepth, h, hne]
  · simp [bareAtDepth, h]

theorem setPath_bare (dep : Nat) : ∀ (path : List Char) (t : Ped) (b : Char)
    (n : Ped) (t' : Ped) (g : Nat),
    setPath t path b n = some t' →
    bareAtDepth t g dep = true →
    bareAtDepth n (g + path.length + 1) dep = true →
    g + path.length + 1 ≤ dep →
    bareAtDepth t' g dep = true := by
  intro path
  induction path with
  | nil =>
    intro t b n t' g hset ht hn hle
    cases t with
    | missing => exact absurd hset (by simp [setPath])
    | node i nm s d =>
      simp only [setPath] at hset
      have he := Option.some.inj hset
      subst he
      have hgd : (g == dep) = false := beq_eq_false_iff_ne.2 (by omega)
      simp only [List.length_nil, Nat.add_zero] at hn
      simp only [bareAtDepth, Bool.and_eq_true, Bool.or_eq_true] at ht
      by_cases hb : b == '1'
      · simp only [if_pos hb]
        simp [bareAtDepth, hgd, hn, ht.2]
      · simp only [if_neg hb]
        simp [bareAtDepth, hgd, hn, ht.1.2]
  | cons ch cs ih =>
    intro t b n t' g hset ht hn hle
    cases t with
    | missing => exact absurd hset (by simp [setPath])
    | node i nm s d =>
      simp only [setPath] at hset
      simp only [List.length_cons] at hn hle
      have harith : g + (cs.length + 1) + 1 = (g + 1) + cs.length + 1 := by
        omega
      rw [harith] at hn hle
      simp only [bareAtDepth, Bool.and_eq_true, Bool.or_eq_true] at ht
      by_cases hch : ch == '1'
      · rw [if_pos hch] at hset
        cases hsp : setPath s cs b n with
        | none => rw [hsp] at hset; exact absurd hset (by simp)
        | some s' =>
          rw [hsp] at hset
          have he := Option.some.inj hset
          subst he
          have hgd : (g == dep) = false := beq_eq_false_iff_ne.2 (by omega)
          have hs' := ih s b n s' (g + 1) hsp ht.1.2 hn hle
          simp [bareAtDepth, hgd, hs', ht.2]
      · rw [if_neg hch] at hset
        cases hsp : setPath d cs b n with
        | none => rw [hsp] at hset; exact absurd hset (by simp)
        | some d' =>
          rw [hsp] at hset
          have he := Option.some.inj hset
          subst he
          have hgd : (g == dep) = false := beq_eq_false_iff_ne.2 (by omega)
          have hd' := ih d b n d' (g + 1) hsp ht.2 hn hle
          simp [bareAtDepth, hgd, hd', ht.1.2]

theorem reshape_bare (dep : Nat) : ∀ (rows : List PedRow) (t t' : Ped),
    (∀ r ∈ rows, r.position.length = r.generation ∧
      r.generation ≤ max dep 1) →
    bareAtDepth t 1 dep = true →
    reshape dep rows t = some t' →
    bareAtDepth t' 1 dep = true := by
  intro rows
  induction rows with
  | nil =>
    intro t t' _ ht h
    have he := Option.some.inj h
    subst he
    exact ht
  | cons r rs ih =>
    intro t t' hrows ht h
    simp only [reshape] at h
    by_cases hg1 : r.generation = 1
    · rw [if_pos hg1] at h
      exact ih _ _ (fun x hx => hrows x (List.mem_cons_of_mem _ hx))
        (rootNode_bare dep r) h
    · rw [if_neg hg1] at h
      cases hlast : r.position.getLast? with
      | none => rw [hlast] at h; exact absurd h (by simp)
      | some c =>
        rw [hlast] at h
        dsimp only [] at h
        cases hsp : setPath t (r.position.dropLast.drop 1) c (mkNode dep r)
          with
        | none => rw [hsp] at h; simp at h
        | some t₁ =>
          rw [hsp] at h
          dsimp only [] at h
          rcases hrows r (List.mem_cons_self r rs) with ⟨hlen, hbound⟩
          have hpos : r.position ≠ [] := by
            intro hne
            rw [List.getLast?_eq_none_iff.2 hne] at hlast
            cases hlast
          have hgen1 : 1 ≤ r.generation := by
            rw [← hlen]
            exact List.length_pos.2 hpos
          have hgen2 : 2 ≤ r.generation := by omega
          have hplen : (r.position.dropLast.drop 1).length =
              r.generation - 2 := by
            rw [List.length_drop, List.length_dropLast, hlen]
            omega
          have harith : 1 + (r.position.dropLast.drop 1).length + 1 =
              r.generation := by omega
          have hdep : 1 + (r.position.dropLast.drop 1).length + 1 ≤ dep := by
            omega
          have hmk : bareAtDepth (mkNode dep r)
              (1 + (r.position.dropLast.drop 1).length + 1) dep = true := by
            rw [harith]
            exact mkNode_bare dep r
          have ht₁ := setPath_bare dep _ t c (mkNode dep r) t₁ 1 hsp ht hmk
            hdep
          exact ih _ _ (fun x hx => hrows x (List.mem_cons_of_mem _ hx)) ht₁ h

/-- C8 (counterexample): the claim "a node at the deepest generation does
not carry its own sire/dam placeholder entries — including the root node
when the maximum depth is 1" is false: at depth 1 the Python reshaping
always seeds the root's `sire`/`dam` entries from the record's own
reference fields (the `generation < depth` guard sits only on the
non-root branch), so the depth-1 root carries both placeholders. -/
theorem c8_counterexample :
    get_pedigree_tree (.ok db8) "R" 1 =
      Ped.node (some "R") (some "R")
        (Ped.node (some "S1") (some "SN") .missing .missing)
        (Ped.node (some "D1") (some "DN") .missing .missing)
    ∧ bareAtDepthClaim (get_pedigree_tree (.ok db8) "R" 1) 1 1 = false := by
  constructor
  · rfl
  · rfl

/-- C8 (amended): in the tree returned by `get_pedigree_tree` with clamped
maximum depth `d`, every node of generation at least 2 sitting at the
deepest generation `d` carries no sire/dam entries (they are omitted, not
null-filled); the root node is the exception — it always carries sire/dam
entries seeded from its own record, even when `d = 1`. -/
theorem c8_deepest_bare (fetch : Except Unit (String → Option UmRow))
    (horse_id : String) (depth : Nat) :
    bareAtDepth (get_pedigree_tree fetch horse_id depth) 1
      (if depth > 3 then 3 else depth) = true := by
  unfold get_pedigree_tree
  cases fetch with
  | error e => rfl
  | ok db =>
    simp only
    generalize (if depth > 3 then 3 else depth) = d
    split
    · rfl
    · split
      · rfl
      · next t ht =>
        exact reshape_bare d (pedRows db horse_id d) Ped.missing t
          (pedRows_spec db horse_id d) rfl ht

/-! ## Claim C9 -/

/-- C9: the degraded (failure or empty-data) result of
`get_jockey_course_feature` has a strictly smaller key set than a
successful result: every call returns either the 12-key degraded dict or
the 20-key successful dict; a call whose segment rows are non-empty
returns the successful dict; the eight keys `top3_finishes`, `top3_rate`,
`avg_popularity`, `middle_odds_wins`, `longshot_wins`, `all_total_races`,
`all_win_rate` and `all_roi_percentage` are present in every successful
dict and absent from the degraded dict; and the degraded key list is a
proper subset of the successful one. -/
theorem c9_degraded_shape :
    (∀ jockey_id cn tt dc e,
      (get_jockey_course_feature jockey_id cn tt dc (.error e)).map
        Prod.fst = gjcfDegradedKeys)
  ∧ (∀ jockey_id cn tt dc rows,
      (get_jockey_course_feature jockey_id cn tt dc (.ok rows)).map
          Prod.fst = gjcfDegradedKeys ∨
      (get_jockey_course_feature jockey_id cn tt dc (.ok rows)).map
          Prod.fst = gjcfSuccessKeys)
  ∧ (∀ jockey_id cn tt dc rows,
      gjcfSeg jockey_id ((course_code_map cn).getD cn) tt dc rows ≠ [] →
      (get_jockey_course_feature jockey_id cn tt dc (.ok rows)).map
        Prod.fst = gjcfSuccessKeys)
  ∧ (∀ k ∈ c9MissingKeys, k ∈ gjcfSuccessKeys ∧ k ∉ gjcfDegradedKeys)
  ∧ (∀ k ∈ gjcfDegradedKeys, k ∈ gjcfSuccessKeys)
  ∧ gjcfDegradedKeys ≠ gjcfSuccessKeys := by
  refine ⟨fun _ _ _ _ _ => rfl, ?_, ?_, by decide, by decide, by decide⟩
  · intro jockey_id cn tt dc rows
    simp only [get_jockey_course_feature]
    split
    · exact Or.inl rfl
    · exact Or.inr rfl
  · intro jockey_id cn tt dc rows hseg
    obtain ⟨r, hr⟩ := List.exists_mem_of_ne_nil _ hseg
    have hall : r ∈ gjcfAll jockey_id rows := by
      simp only [gjcfSeg, List.mem_filter, Bool.and_eq_true] at hr
      simp only [gjcfAll, List.mem_filter, Bool.and_eq_true]
      exact ⟨hr.1, hr.2.1.1.1.1, hr.2.1.1.1.2⟩
    have hjoin : ((r.kishu_code, trimStr r.kishumei_ryakusho),
        (r.kishu_code, trimStr r.kishumei_ryakusho)) ∈
        (distinctKeys ((gjcfSeg jockey_id ((course_code_map cn).getD cn) tt
          dc rows).map fun x =>
            (x.kishu_code, trimStr x.kishumei_ryakusho))).flatMap
          fun a =>
            ((distinctKeys ((gjcfAll jockey_id rows).map fun x =>
              (x.kishu_code, trimStr x.kishumei_ryakusho))).filter
                fun b => b.1 == a.1).map fun b => (a, b) := by
      apply List.mem_flatMap.2
      refine ⟨(r.kishu_code, trimStr r.kishumei_ryakusho), ?_, ?_⟩
      · exact mem_distinctKeys.2 (List.mem_map_of_mem _ hr)
      · apply List.mem_map_of_mem
        apply List.mem_filter.2
        exact ⟨mem_distinctKeys.2 (List.mem_map_of_mem _ hall), by simp⟩
    simp only [get_jockey_course_feature]
    split
    · next heq =>
      rw [heq] at hjoin
      exact absurd hjoin (List.not_mem_nil _)
    · rfl

/-- C9 (witness): at a concrete jockey/course/track/distance input, a
failed fetch yields the 12-key degraded dict and a fetch with one
qualifying row yields the 20-key successful dict. -/
theorem c9_degraded_shape_witness :
    (get_jockey_course_feature "K1" "東京" "芝" "中距離" (.error ())).map
      Prod.fst = gjcfDegradedKeys ∧
    (get_jockey_course_feature "K1" "東京" "芝" "中距離"
      (.ok [winRow])).map Prod.fst = gjcfSuccessKeys := by
  constructor
  · exact c9_degraded_shape.1 "K1" "東京" "芝" "中距離" ()
  · exact c9_degraded_shape.2.2.1 "K1" "東京" "芝" "中距離" [winRow]
      (by decide)

/-! ## Claim C10 -/

/-- C10: in `get_horse_sire_track_roi_feature`, a failure confined to the
rank sub-query degrades only the rank: the returned record carries the
segment statistics computed from the ROI query (sire name, segment ROI,
win rate, race count) with `sire_track_roi_rank = 0`, and it equals the
result of the same call with any successful rank fetch except for the rank
field — it is not replaced by the zero-filled fallback. -/
theorem c10_rank_only_degrade (tt tc sid sname : String)
    (rest : List (String × String)) (rows : List RaceRow) (e : Unit) :
    get_horse_sire_track_roi_feature tt tc (.ok ((sid, sname) :: rest))
        (.ok rows) (.error e) =
      { sire_name := some sname,
        sire_track_roi :=
          roi_percentageOf (rows.filter (sireSegPred sid tt tc)),
        sire_track_win_rate :=
          pctOf (winsOf (rows.filter (sireSegPred sid tt tc)))
            (rows.filter (sireSegPred sid tt tc)).length,
        sire_track_races := (rows.filter (sireSegPred sid tt tc)).length,
        sire_track_roi_rank := 0 }
    ∧ ∀ rankRows,
      get_horse_sire_track_roi_feature tt tc (.ok ((sid, sname) :: rest))
          (.ok rows) (.error e) =
        { get_horse_sire_track_roi_feature tt tc (.ok ((sid, sname) :: rest))
            (.ok rows) (.ok rankRows) with sire_track_roi_rank := 0 } :=
  ⟨rfl, fun _ => rfl⟩

end JRA
